import Mathlib

/-!
# MA Deviation Analyzer — shallow embedding

Embedding of `ma_deviation_analyzer.py` (class `MADeviationAnalyzer` and its
result data model).  Prices and percentages are modelled as exact rationals
(`ℚ`); Python floats carry no claim-relevant rounding behaviour here.  The
wall-clock timestamp that `analyze` stamps into its result is passed in as an
explicit `analysis_time` argument, the standard reading of `datetime.now()`
as an ambient-clock input.
-/

/-- Per-period signal classification (`signal` strings BUY / SELL / NEUTRAL). -/
inductive Signal where
  | BUY
  | SELL
  | NEUTRAL
deriving DecidableEq, Repr

/-- Signal strength tiers (the Chinese strings 强 / 中 / 弱 / 无 of the source). -/
inductive Strength where
  | strong
  | medium
  | weak
  | none
deriving DecidableEq, Repr

/-- Rendering of a `Strength` back to its source string (强/中/弱/无). -/
def strengthText : Strength → String
  | Strength.strong => "强"
  | Strength.medium => "中"
  | Strength.weak => "弱"
  | Strength.none => "无"

/-- One row of the input DataFrame: a trading date and a closing price. -/
structure PricePoint where
  date : Nat
  close : ℚ
deriving DecidableEq, Repr

/-- The `DeviationSignal` dataclass. -/
structure DeviationSignal where
  ma_type : String
  ma_value : ℚ
  current_price : ℚ
  deviation_pct : ℚ
  signal : Signal
  strength : Strength
  reason : String
deriving DecidableEq, Repr

/-- One `raw_data` entry (the per-period dict of rounded values). -/
structure RawEntry where
  value : ℚ
  deviation_pct : ℚ
  signal : Signal
  strength : Strength
deriving DecidableEq, Repr

/-- The `DeviationAnalysisResult` dataclass. -/
structure DeviationAnalysisResult where
  code : String
  name : String
  current_price : ℚ
  signals : List DeviationSignal
  overall_signal : Signal
  confidence : Nat
  analysis_time : String
  raw_data : List (String × RawEntry)
deriving DecidableEq, Repr

/-- The analyzer: its only state is the configured base threshold
(`self.threshold`, default 1.5). -/
structure MADeviationAnalyzer where
  threshold : ℚ
deriving DecidableEq, Repr

/-- The weak entry of the THRESHOLDS dict as assigned in the constructor. -/
def MADeviationAnalyzer.weak (a : MADeviationAnalyzer) : ℚ := a.threshold

/-- The medium entry of the THRESHOLDS dict as assigned in the constructor. -/
def MADeviationAnalyzer.medium (a : MADeviationAnalyzer) : ℚ := a.threshold + 1

/-- The strong entry of the THRESHOLDS dict as assigned in the constructor. -/
def MADeviationAnalyzer.strong (a : MADeviationAnalyzer) : ℚ := a.threshold + 2

/-- The `calculate_ma` method: 0.0 when the series is shorter than `period`, else the
mean of the trailing `period` prices (`prices.tail(period).mean()`). -/
def calculate_ma (prices : List ℚ) (period : Nat) : ℚ :=
  if prices.length < period then 0
  else (prices.drop (prices.length - period)).sum / period

/-- The `calculate_deviation` method: percentage drift of the current price from the
moving average, with the `ma_value == 0` guard returning 0.0. -/
def calculate_deviation (current_price ma_value : ℚ) : ℚ :=
  if ma_value = 0 then 0
  else (current_price - ma_value) / ma_value * 100

/-- The `get_signal_strength` method: grade `|deviation_pct|` against the three
thresholds, checking strong, then medium, then weak. -/
def MADeviationAnalyzer.get_signal_strength (a : MADeviationAnalyzer)
    (deviation_pct : ℚ) : Strength :=
  let abs_dev := |deviation_pct|
  if abs_dev ≥ a.strong then Strength.strong
  else if abs_dev ≥ a.medium then Strength.medium
  else if abs_dev ≥ a.weak then Strength.weak
  else Strength.none

/-- Floor of a rational computed directly (`Int.fdiv` is floor division);
kernel-reducible, unlike the `Int.floor` instance on `ℚ`. -/
def ratFloor (q : ℚ) : ℤ := q.num.fdiv q.den

/-- Round a rational to the nearest integer (halves up), kernel-reducible. -/
def ratRound (q : ℚ) : ℤ := ratFloor (q + 1 / 2)

/-- Two-decimal rendering of a rational, the model of Python `:.2f`
formatting (`3` ↦ `3.00`). -/
def fmt2 (q : ℚ) : String :=
  let n : ℤ := ratRound (q * 100)
  let m := n.natAbs
  (if n < 0 then "-" else "") ++ toString (m / 100) ++ "." ++
    (if m % 100 < 10 then "0" else "") ++ toString (m % 100)

/-- Model of Python `:+.2f` formatting (always-signed two decimals). -/
def fmtSigned2 (q : ℚ) : String :=
  let n : ℤ := ratRound (q * 100)
  let m := n.natAbs
  (if n < 0 then "-" else "+") ++ toString (m / 100) ++ "." ++
    (if m % 100 < 10 then "0" else "") ++ toString (m % 100)

/-- Python `round(x, 2)`: round to two decimal places. -/
def round2 (q : ℚ) : ℚ := (ratRound (q * 100) : ℚ) / 100

/-- The `generate_signal` method: classify a deviation into BUY / SELL / NEUTRAL with its
strength and reason text; `ma_value` and `current_price` are placeholder 0.0
values to be filled in by the caller. -/
def MADeviationAnalyzer.generate_signal (a : MADeviationAnalyzer)
    (deviation_pct : ℚ) (ma_type : String) : DeviationSignal :=
  let strength := a.get_signal_strength deviation_pct
  let (signal, reason) :=
    if deviation_pct ≥ a.weak then
      (Signal.SELL,
        "价格高于 " ++ ma_type ++ " " ++ fmt2 |deviation_pct| ++ "%，" ++
          strengthText strength ++ "超买")
    else if deviation_pct ≤ -a.weak then
      (Signal.BUY,
        "价格低于 " ++ ma_type ++ " " ++ fmt2 |deviation_pct| ++ "%，" ++
          strengthText strength ++ "超卖")
    else
      (Signal.NEUTRAL,
        "价格偏离 " ++ ma_type ++ " " ++ fmt2 deviation_pct ++ "%，处于正常区间")
  { ma_type := ma_type
    ma_value := 0
    current_price := 0
    deviation_pct := deviation_pct
    signal := signal
    strength := strength
    reason := reason }

/-- Weights dict of the overall-signal computation (强=3 中=2 弱=1 无=0). -/
def strength_weights : Strength → Nat
  | Strength.strong => 3
  | Strength.medium => 2
  | Strength.weak => 1
  | Strength.none => 0

/-- The private overall-signal method: weighted vote over per-period signals. -/
def calculate_overall_signal (signals : List DeviationSignal) : Signal × Nat :=
  if signals.isEmpty then (Signal.NEUTRAL, 0)
  else
    let buy_count := (signals.filter fun s => s.signal = Signal.BUY).length
    let sell_count := (signals.filter fun s => s.signal = Signal.SELL).length
    let buy_weight := ((signals.filter fun s => s.signal = Signal.BUY).map
      fun s => strength_weights s.strength).sum
    let sell_weight := ((signals.filter fun s => s.signal = Signal.SELL).map
      fun s => strength_weights s.strength).sum
    if buy_weight > sell_weight ∧ buy_count > 0 then
      (Signal.BUY, min 100 (buy_weight * 20))
    else if sell_weight > buy_weight ∧ sell_count > 0 then
      (Signal.SELL, min 100 (sell_weight * 20))
    else
      (Signal.NEUTRAL, 0)

/-- Ordered insertion by date, the building block of the stable sort that
models the sort of the DataFrame by its date column. -/
def insertByDate (p : PricePoint) : List PricePoint → List PricePoint
  | [] => [p]
  | q :: qs => if p.date ≤ q.date then p :: q :: qs else q :: insertByDate p qs

/-- Stable insertion sort by date, the model of the sort by the date column. -/
def sortByDate : List PricePoint → List PricePoint
  | [] => []
  | p :: ps => insertByDate p (sortByDate ps)

/-- The fixed period set of `analyze` (`ma_periods = [5, 10, 20, 60]`). -/
def ma_periods : List Nat := [5, 10, 20, 60]

/-- One iteration of the period loop in `analyze`: skip when the history is
too short, otherwise build the filled-in signal and its `raw_data` entry. -/
def evalPeriod (a : MADeviationAnalyzer) (closes : List ℚ) (current_price : ℚ)
    (period : Nat) : Option (DeviationSignal × (String × RawEntry)) :=
  if closes.length < period then Option.none
  else
    let ma_value := calculate_ma closes period
    let deviation_pct := calculate_deviation current_price ma_value
    let s := a.generate_signal deviation_pct ("MA" ++ toString period)
    let s := { s with ma_value := round2 ma_value,
                      current_price := round2 current_price }
    Option.some (s, ("MA" ++ toString period,
      { value := round2 ma_value
        deviation_pct := round2 deviation_pct
        signal := s.signal
        strength := s.strength }))

/-- The `analyze` method: sort by date, fail on an empty history, evaluate each period,
and aggregate into the overall signal and confidence. -/
def analyze (a : MADeviationAnalyzer) (df : List PricePoint)
    (code name analysis_time : String) :
    Except String DeviationAnalysisResult :=
  let sorted := sortByDate df
  if sorted.isEmpty then Except.error ("股票 " ++ code ++ " 数据为空")
  else
    let current_price := (sorted.getLastD ⟨0, 0⟩).close
    let closes := sorted.map PricePoint.close
    let evals := ma_periods.filterMap (evalPeriod a closes current_price)
    let signals := evals.map Prod.fst
    let raw_data := evals.map Prod.snd
    let overall := calculate_overall_signal signals
    Except.ok
      { code := code
        name := name
        current_price := round2 current_price
        signals := signals
        overall_signal := overall.1
        confidence := overall.2
        analysis_time := analysis_time
        raw_data := raw_data }

/-- The emoji tag of a per-signal line in the formatted report. -/
def signalEmoji (s : Signal) : String :=
  if s = Signal.SELL then "[卖出]" else if s = Signal.BUY then "[买入]" else "[中性]"

/-- The signal-text dict of the formatter (BUY/SELL/NEUTRAL rendering). -/
def signalText : Signal → String
  | Signal.BUY => "买入"
  | Signal.SELL => "卖出"
  | Signal.NEUTRAL => "观望"

/-- The lines list that the formatter builds before joining with
newlines. -/
def formatLines (result : DeviationAnalysisResult) : List String :=
  let lines := [
    "## [分析] " ++ result.name ++ " (" ++ result.code ++ ") 均线偏离分析",
    "",
    "**当前价格**: " ++ toString result.current_price,
    "**分析时间**: " ++ result.analysis_time,
    "",
    "### 偏离详情",
    ""]
  let lines := lines ++ result.signals.map (fun sig =>
    signalEmoji sig.signal ++ " **" ++ sig.ma_type ++ "**: " ++
      toString sig.ma_value ++ " | 偏离: " ++ fmtSigned2 sig.deviation_pct ++
      "% | " ++ sig.reason)
  let lines := lines ++ ["", "### 综合判断", ""]
  let lines := lines ++ [signalEmoji result.overall_signal ++ " **综合信号**: " ++
    signalText result.overall_signal ++ " (置信度: " ++
    toString result.confidence ++ "%)"]
  if result.overall_signal ≠ Signal.NEUTRAL then
    lines ++ ["", "**操作建议**:"] ++
      (if result.overall_signal = Signal.BUY then
        ["- 价格跌破均线支撑，出现超卖迹象", "- 建议关注反弹机会，可考虑分批买入"]
      else
        ["- 价格突破均线压力，出现超买迹象", "- 建议注意回调风险，可考虑分批止盈"])
  else lines

/-- The `format_result` method: join the report lines with newlines. -/
def format_result (result : DeviationAnalysisResult) : String :=
  String.intercalate "\n" (formatLines result)

/-! ## Spec-side definitions

These follow the wording of the specification (not the code); the theorems
below compare them with the source-derived definitions above. -/

/-- Spec wording: sum of the strength weights over the signals classified
BUY. -/
def buyWeight (signals : List DeviationSignal) : Nat :=
  ((signals.filter fun s => s.signal = Signal.BUY).map
    fun s => strength_weights s.strength).sum

/-- Spec wording: sum of the strength weights over the signals classified
SELL. -/
def sellWeight (signals : List DeviationSignal) : Nat :=
  ((signals.filter fun s => s.signal = Signal.SELL).map
    fun s => strength_weights s.strength).sum

/-- Spec wording: the overall-signal line with confidence that the report
ends on. -/
def overallLine (result : DeviationAnalysisResult) : String :=
  signalEmoji result.overall_signal ++ " **综合信号**: " ++
    signalText result.overall_signal ++ " (置信度: " ++
    toString result.confidence ++ "%)"

/-- The fixed advisory block that follows the overall-signal line, keyed
only by the overall signal; NEUTRAL gets no advisory at all. -/
def advisoryBlock : Signal → List String
  | Signal.BUY =>
      ["", "**操作建议**:", "- 价格跌破均线支撑，出现超卖迹象",
       "- 建议关注反弹机会，可考虑分批买入"]
  | Signal.SELL =>
      ["", "**操作建议**:", "- 价格突破均线压力，出现超买迹象",
       "- 建议注意回调风险，可考虑分批止盈"]
  | Signal.NEUTRAL => []

/-! ## Helper lemmas -/

theorem length_insertByDate (p : PricePoint) (l : List PricePoint) :
    (insertByDate p l).length = l.length + 1 := by
  induction l with
  | nil => rfl
  | cons q qs ih =>
    simp only [insertByDate]
    split <;> simp [ih]

theorem length_sortByDate (l : List PricePoint) :
    (sortByDate l).length = l.length := by
  induction l with
  | nil => rfl
  | cons p ps ih => simp [sortByDate, length_insertByDate, ih]

theorem mem_insertByDate {x p : PricePoint} {l : List PricePoint} :
    x ∈ insertByDate p l ↔ x = p ∨ x ∈ l := by
  induction l with
  | nil => simp [insertByDate]
  | cons q qs ih =>
    simp only [insertByDate]
    split <;> simp [ih, or_left_comm]

theorem mem_sortByDate {x : PricePoint} {l : List PricePoint} :
    x ∈ sortByDate l ↔ x ∈ l := by
  induction l with
  | nil => simp [sortByDate]
  | cons p ps ih => simp [sortByDate, mem_insertByDate, ih]

theorem sortByDate_eq_nil_iff {l : List PricePoint} :
    sortByDate l = [] ↔ l = [] := by
  rw [← List.length_eq_zero, length_sortByDate, List.length_eq_zero]

theorem getLastD_mem {α : Type} (l : List α) (d : α) (h : l ≠ []) :
    l.getLastD d ∈ l := by
  induction l generalizing d with
  | nil => exact absurd rfl h
  | cons a l ih =>
    rw [List.getLastD_cons]
    cases l with
    | nil => simp
    | cons b m => exact List.mem_cons_of_mem a (ih a (List.cons_ne_nil b m))

/-- A positive filter length is the same as a witness in the list. -/
theorem filter_length_pos_iff {α : Type} (l : List α) (p : α → Bool) :
    0 < (l.filter p).length ↔ ∃ a ∈ l, p a := by
  rw [List.length_pos, Ne, List.filter_eq_nil_iff]
  push_neg
  simp

/-! ## Claim theorems -/

/-- C1: the overall-signal computation sums the strength weights over the BUY
and SELL signals and returns (BUY, min 100 (buy_weight*20)) when the buy
weight strictly dominates and a BUY signal exists, (SELL, min 100
(sell_weight*20)) symmetrically, and (NEUTRAL, 0) otherwise — including on
an exact tie with nonzero weight on both sides, and on an empty signal
list. -/
theorem calculate_overall_signal_spec (signals : List DeviationSignal) :
    calculate_overall_signal signals =
      if buyWeight signals > sellWeight signals ∧
          ∃ s ∈ signals, s.signal = Signal.BUY then
        (Signal.BUY, min 100 (buyWeight signals * 20))
      else if sellWeight signals > buyWeight signals ∧
          ∃ s ∈ signals, s.signal = Signal.SELL then
        (Signal.SELL, min 100 (sellWeight signals * 20))
      else (Signal.NEUTRAL, 0) := by
  have hbuy : (0 < (signals.filter fun s => s.signal = Signal.BUY).length) ↔
      ∃ s ∈ signals, s.signal = Signal.BUY := by
    rw [filter_length_pos_iff]
    simp
  have hsell : (0 < (signals.filter fun s => s.signal = Signal.SELL).length) ↔
      ∃ s ∈ signals, s.signal = Signal.SELL := by
    rw [filter_length_pos_iff]
    simp
  unfold calculate_overall_signal buyWeight sellWeight
  cases signals with
  | nil => simp
  | cons a l =>
    simp only [List.isEmpty_cons, Bool.false_eq_true, if_false]
    rw [if_congr (iff_of_eq (congrArg _ rfl)) rfl rfl]
    rw [if_congr (and_congr Iff.rfl hbuy) rfl
      (if_congr (and_congr Iff.rfl hsell) rfl rfl)]

/-- Unpacking a successful analysis call into its signal list and
aggregation. -/
theorem analyze_ok_signals (a : MADeviationAnalyzer) (df : List PricePoint)
    (code name time : String) (r : DeviationAnalysisResult)
    (h : analyze a df code name time = Except.ok r) :
    r.signals = (List.filterMap
        (evalPeriod a ((sortByDate df).map PricePoint.close)
          ((sortByDate df).getLastD ⟨0, 0⟩).close) ma_periods).map Prod.fst ∧
      r.overall_signal = (calculate_overall_signal r.signals).1 ∧
      r.confidence = (calculate_overall_signal r.signals).2 := by
  unfold analyze at h
  by_cases hse : (sortByDate df).isEmpty = true
  · rw [if_pos hse] at h
    exact absurd h (by simp)
  · rw [Bool.not_eq_true] at hse
    simp only [hse, Bool.false_eq_true, if_false, Except.ok.injEq] at h
    subst h
    exact ⟨rfl, rfl, rfl⟩

/-- The generated signal stores the deviation it is given, unchanged. -/
theorem generate_signal_deviation_pct (a : MADeviationAnalyzer) (d : ℚ)
    (label : String) : (a.generate_signal d label).deviation_pct = d := by
  simp only [MADeviationAnalyzer.generate_signal]

/-- What a non-skipped period contributes: the signal generated from the
deviation of the current price against that period moving average. -/
theorem evalPeriod_some (a : MADeviationAnalyzer) (closes : List ℚ)
    (cp : ℚ) (period : Nat) (s : DeviationSignal) (e : String × RawEntry)
    (h : evalPeriod a closes cp period = Option.some (s, e)) :
    ¬ closes.length < period ∧
      s.signal = (a.generate_signal
        (calculate_deviation cp (calculate_ma closes period))
        ("MA" ++ toString period)).signal ∧
      s.strength = (a.generate_signal
        (calculate_deviation cp (calculate_ma closes period))
        ("MA" ++ toString period)).strength ∧
      s.deviation_pct =
        calculate_deviation cp (calculate_ma closes period) := by
  unfold evalPeriod at h
  split at h
  · exact absurd h (by simp)
  · next hc =>
    simp only [Option.some.injEq, Prod.mk.injEq] at h
    refine ⟨hc, ?_, ?_, ?_⟩ <;> rw [← h.1]
    exact generate_signal_deviation_pct a
      (calculate_deviation cp (calculate_ma closes period))
      ("MA" ++ toString period)

/-- C2: with thresholds weak = t, medium = t + 1, strong = t + 2, the
classification is SELL for deviations at or above weak (inclusive
boundary), BUY at or below -weak, NEUTRAL otherwise; the strength tiers
are NONE / WEAK / MEDIUM / STRONG graded by `|deviation|` with every tier
boundary inclusive on its lower edge. -/
theorem classify_strength_spec (t d : ℚ) (label : String) :
    (MADeviationAnalyzer.generate_signal ⟨t⟩ d label).signal =
        (if d ≥ t then Signal.SELL
         else if d ≤ -t then Signal.BUY
         else Signal.NEUTRAL) ∧
      MADeviationAnalyzer.get_signal_strength ⟨t⟩ d =
        (if |d| < t then Strength.none
         else if |d| < t + 1 then Strength.weak
         else if |d| < t + 2 then Strength.medium
         else Strength.strong) := by
  constructor
  · simp only [MADeviationAnalyzer.generate_signal, MADeviationAnalyzer.weak]
    split_ifs <;> simp_all
  · simp only [MADeviationAnalyzer.get_signal_strength,
      MADeviationAnalyzer.weak, MADeviationAnalyzer.medium,
      MADeviationAnalyzer.strong]
    split_ifs <;> first | rfl | linarith

/-- C3: the deviation computation returns the percentage drift
`(current_price - ma_value) / ma_value * 100` for a nonzero moving
average and exactly 0 when the moving average is zero, never failing. -/
theorem calculate_deviation_spec (p m : ℚ) :
    (m = 0 → calculate_deviation p m = 0) ∧
      (m ≠ 0 → calculate_deviation p m = (p - m) / m * 100) := by
  constructor
  · intro h
    simp [calculate_deviation, h]
  · intro h
    simp [calculate_deviation, h]

theorem calculate_deviation_spec_witness :
    calculate_deviation 5 0 = 0 ∧ calculate_deviation 6 2 = (6 - 2) / 2 * 100 :=
  ⟨(calculate_deviation_spec 5 0).1 rfl,
   (calculate_deviation_spec 6 2).2 (by decide)⟩

/-- A non-empty history always yields an ordinary result. -/
theorem analyze_ok_of_ne_nil (a : MADeviationAnalyzer) (df : List PricePoint)
    (code name time : String) (h : df ≠ []) :
    ∃ r, analyze a df code name time = Except.ok r := by
  unfold analyze
  have hne : (sortByDate df).isEmpty = false := by
    rw [List.isEmpty_eq_false]
    exact fun hnil => h (sortByDate_eq_nil_iff.mp hnil)
  simp only [hne, Bool.false_eq_true, if_false]
  exact ⟨_, rfl⟩

/-- C4: `analyze` raises exactly on an empty history: it returns an error
when the price history has zero points and an ordinary result for every
non-empty history. -/
theorem analyze_error_iff_empty (a : MADeviationAnalyzer)
    (df : List PricePoint) (code name time : String) :
    (df = [] → ∃ e, analyze a df code name time = Except.error e) ∧
      (df ≠ [] → ∃ r, analyze a df code name time = Except.ok r) := by
  constructor
  · rintro rfl
    exact ⟨_, rfl⟩
  · exact analyze_ok_of_ne_nil a df code name time

theorem analyze_error_iff_empty_witness :
    (∃ e, analyze ⟨2⟩ [] "c" "n" "t" = Except.error e) ∧
      ∃ r, analyze ⟨2⟩ [⟨0, 10⟩] "c" "n" "t" = Except.ok r :=
  ⟨(analyze_error_iff_empty ⟨2⟩ [] "c" "n" "t").1 rfl,
   (analyze_error_iff_empty ⟨2⟩ [⟨0, 10⟩] "c" "n" "t").2 (by decide)⟩

/-- C5: for a history of at least `period` points and a positive period,
`calculate_ma` is the arithmetic mean of the trailing `period` closes. -/
theorem calculate_ma_trailing (xs ys : List ℚ) (period : Nat)
    (_hp : 0 < period) (hlen : ys.length = period) :
    calculate_ma (xs ++ ys) period = ys.sum / period := by
  unfold calculate_ma
  rw [if_neg]
  · have harith : (xs ++ ys).length - period = xs.length := by
      rw [List.length_append, hlen]
      omega
    rw [harith, List.drop_left]
  · rw [List.length_append, hlen]
    omega

theorem calculate_ma_trailing_witness :
    0 < 2 ∧ ([3, 4] : List ℚ).length = 2 ∧
      calculate_ma ([1, 2] ++ [3, 4]) 2 = ([3, 4] : List ℚ).sum / 2 :=
  ⟨by decide, by decide, calculate_ma_trailing [1, 2] [3, 4] 2 (by decide) rfl⟩

/-- A period the history cannot fill is skipped. -/
theorem evalPeriod_none (a : MADeviationAnalyzer) (closes : List ℚ)
    (cp : ℚ) (period : Nat) (h : closes.length < period) :
    evalPeriod a closes cp period = Option.none := by
  unfold evalPeriod
  rw [if_pos h]

/-- C6: a non-empty history of fewer than 5 points silently skips all four
configured periods: `analyze` succeeds with no per-period signals, a
NEUTRAL overall signal and zero confidence. -/
theorem analyze_short_history (a : MADeviationAnalyzer) (df : List PricePoint)
    (code name time : String) (hne : df ≠ []) (hlen : df.length < 5) :
    ∃ r, analyze a df code name time = Except.ok r ∧
      r.signals = [] ∧ r.overall_signal = Signal.NEUTRAL ∧
      r.confidence = 0 := by
  have hse : (sortByDate df).isEmpty = false := by
    rw [List.isEmpty_eq_false]
    exact fun hnil => hne (sortByDate_eq_nil_iff.mp hnil)
  have hclen : ((sortByDate df).map PricePoint.close).length < 5 := by
    rw [List.length_map, length_sortByDate]
    exact hlen
  have hevals : ∀ cp, List.filterMap
      (evalPeriod a ((sortByDate df).map PricePoint.close) cp) ma_periods
      = [] := by
    intro cp
    simp only [ma_periods, List.filterMap_cons, List.filterMap_nil,
      evalPeriod_none a ((sortByDate df).map PricePoint.close) cp 5 hclen,
      evalPeriod_none a ((sortByDate df).map PricePoint.close) cp 10
        (by omega),
      evalPeriod_none a ((sortByDate df).map PricePoint.close) cp 20
        (by omega),
      evalPeriod_none a ((sortByDate df).map PricePoint.close) cp 60
        (by omega)]
  unfold analyze
  simp only [hse, Bool.false_eq_true, if_false, hevals, List.map_nil]
  exact ⟨_, rfl, rfl, rfl, rfl⟩

theorem analyze_short_history_witness :
    ∃ r, analyze ⟨2⟩ [⟨0, 10⟩, ⟨1, 11⟩] "c" "n" "t" = Except.ok r ∧
      r.signals = [] ∧ r.overall_signal = Signal.NEUTRAL ∧
      r.confidence = 0 :=
  analyze_short_history ⟨2⟩ [⟨0, 10⟩, ⟨1, 11⟩] "c" "n" "t"
    (by decide) (by decide)

/-- C8: the analysis is a pure function of the history apart from the
timestamp: two calls over the same history agree on `signals`, on the
overall signal and on the confidence, whatever the two evaluation times
are. -/
theorem analyze_idempotent (a : MADeviationAnalyzer) (df : List PricePoint)
    (code name t1 t2 : String) (r1 r2 : DeviationAnalysisResult)
    (h1 : analyze a df code name t1 = Except.ok r1)
    (h2 : analyze a df code name t2 = Except.ok r2) :
    r1.signals = r2.signals ∧ r1.overall_signal = r2.overall_signal ∧
      r1.confidence = r2.confidence := by
  unfold analyze at h1 h2
  by_cases hse : (sortByDate df).isEmpty = true
  · rw [if_pos hse] at h1
    exact absurd h1 (by simp)
  · rw [Bool.not_eq_true] at hse
    simp only [hse, Bool.false_eq_true, if_false, Except.ok.injEq] at h1 h2
    subst h1
    subst h2
    exact ⟨rfl, rfl, rfl⟩

theorem analyze_idempotent_witness :
    (⟨"c", "n", round2 10, [], Signal.NEUTRAL, 0, "t1", []⟩ :
        DeviationAnalysisResult).signals =
      (⟨"c", "n", round2 10, [], Signal.NEUTRAL, 0, "t2", []⟩ :
        DeviationAnalysisResult).signals ∧
    (⟨"c", "n", round2 10, [], Signal.NEUTRAL, 0, "t1", []⟩ :
        DeviationAnalysisResult).overall_signal =
      (⟨"c", "n", round2 10, [], Signal.NEUTRAL, 0, "t2", []⟩ :
        DeviationAnalysisResult).overall_signal ∧
    (⟨"c", "n", round2 10, [], Signal.NEUTRAL, 0, "t1", []⟩ :
        DeviationAnalysisResult).confidence =
      (⟨"c", "n", round2 10, [], Signal.NEUTRAL, 0, "t2", []⟩ :
        DeviationAnalysisResult).confidence :=
  analyze_idempotent ⟨2⟩ [⟨0, 10⟩] "c" "n" "t1" "t2" _ _ rfl rfl

/-- A signal classified BUY or SELL by `generate_signal` always carries at
least the WEAK strength: its weight is at least 1. -/
theorem generate_signal_weight (a : MADeviationAnalyzer) (d : ℚ)
    (label : String)
    (h : (a.generate_signal d label).signal ≠ Signal.NEUTRAL) :
    1 ≤ strength_weights (a.generate_signal d label).strength := by
  have habs : a.weak ≤ |d| → 1 ≤ strength_weights (a.get_signal_strength d) := by
    intro hw
    simp only [MADeviationAnalyzer.get_signal_strength]
    split_ifs with h1 h2
    · decide
    · decide
    · decide
  revert h
  simp only [MADeviationAnalyzer.generate_signal]
  split_ifs with h1 h2 <;> intro h
  · exact habs (le_trans h1 (le_abs_self d))
  · exact habs (le_trans (le_neg_of_le_neg h2) (neg_le_abs d))
  · exact absurd rfl h

/-- The overall signal and confidence of `_calculate_overall_signal` are
linked: zero confidence exactly for NEUTRAL, and at least 20 otherwise. -/
theorem overall_signal_confidence (signals : List DeviationSignal) :
    ((calculate_overall_signal signals).2 = 0 ↔
      (calculate_overall_signal signals).1 = Signal.NEUTRAL) ∧
    ((calculate_overall_signal signals).1 ≠ Signal.NEUTRAL →
      20 ≤ (calculate_overall_signal signals).2) := by
  simp only [calculate_overall_signal]
  split
  · simp
  · split_ifs with h1 h2
    · have hw : 1 ≤ ((signals.filter fun s => s.signal = Signal.BUY).map
          fun s => strength_weights s.strength).sum := by omega
      constructor
      · simp only []
        constructor
        · intro hc
          exfalso
          rw [Nat.min_def] at hc
          split_ifs at hc <;> omega
        · intro hc
          exact absurd hc (by simp)
      · intro _
        rw [Nat.le_min]
        omega
    · have hw : 1 ≤ ((signals.filter fun s => s.signal = Signal.SELL).map
          fun s => strength_weights s.strength).sum := by omega
      constructor
      · constructor
        · intro hc
          exfalso
          rw [Nat.min_def] at hc
          split_ifs at hc <;> omega
        · intro hc
          exact absurd hc (by simp)
      · intro _
        rw [Nat.le_min]
        omega
    · simp

/-- C10: in every result of `analyze`, the confidence is zero exactly when
the overall signal is NEUTRAL, a BUY or SELL overall signal carries a
confidence of at least 20, and every per-period signal classified BUY or
SELL has strength at least WEAK (weight at least 1). -/
theorem analyze_confidence_invariant (a : MADeviationAnalyzer)
    (df : List PricePoint) (code name time : String)
    (r : DeviationAnalysisResult)
    (h : analyze a df code name time = Except.ok r) :
    (r.confidence = 0 ↔ r.overall_signal = Signal.NEUTRAL) ∧
      (r.overall_signal ≠ Signal.NEUTRAL → 20 ≤ r.confidence) ∧
      (∀ s ∈ r.signals, s.signal ≠ Signal.NEUTRAL →
        1 ≤ strength_weights s.strength) := by
  obtain ⟨hsig, hov, hconf⟩ := analyze_ok_signals a df code name time r h
  refine ⟨?_, ?_, ?_⟩
  · rw [hconf, hov]
    exact (overall_signal_confidence r.signals).1
  · rw [hconf, hov]
    exact (overall_signal_confidence r.signals).2
  · intro s hs hneq
    rw [hsig] at hs
    obtain ⟨⟨s2, e⟩, hmem, hfst⟩ := List.mem_map.mp hs
    obtain ⟨period, hper, heval⟩ := List.mem_filterMap.mp hmem
    obtain ⟨-, hsg, hst, -⟩ :=
      evalPeriod_some a ((sortByDate df).map PricePoint.close)
        ((sortByDate df).getLastD ⟨0, 0⟩).close period s2 e heval
    cases hfst
    rw [hst]
    apply generate_signal_weight
    rw [← hsg]
    exact hneq

theorem analyze_confidence_invariant_witness :
    ((⟨"c", "n", round2 10, [], Signal.NEUTRAL, 0, "t", []⟩ :
          DeviationAnalysisResult).confidence = 0 ↔
        (⟨"c", "n", round2 10, [], Signal.NEUTRAL, 0, "t", []⟩ :
          DeviationAnalysisResult).overall_signal = Signal.NEUTRAL) ∧
      ((⟨"c", "n", round2 10, [], Signal.NEUTRAL, 0, "t", []⟩ :
          DeviationAnalysisResult).overall_signal ≠ Signal.NEUTRAL →
        20 ≤ (⟨"c", "n", round2 10, [], Signal.NEUTRAL, 0, "t", []⟩ :
          DeviationAnalysisResult).confidence) ∧
      (∀ s ∈ (⟨"c", "n", round2 10, [], Signal.NEUTRAL, 0, "t", []⟩ :
          DeviationAnalysisResult).signals, s.signal ≠ Signal.NEUTRAL →
        1 ≤ strength_weights s.strength) :=
  analyze_confidence_invariant ⟨2⟩ [⟨0, 10⟩] "c" "n" "t" _ rfl

/-- A moving average over a constant price series is that constant. -/
theorem calculate_ma_const (closes : List ℚ) (v : ℚ) (period : Nat)
    (hv : ∀ c ∈ closes, c = v) (hp : 0 < period)
    (hple : period ≤ closes.length) :
    calculate_ma closes period = v := by
  unfold calculate_ma
  rw [if_neg (by omega)]
  have hdl : (closes.drop (closes.length - period)).length = period := by
    rw [List.length_drop]
    omega
  have hsum : (closes.drop (closes.length - period)).sum =
      (closes.drop (closes.length - period)).length • v :=
    List.sum_eq_card_nsmul _ v (fun x hx => hv x (List.mem_of_mem_drop hx))
  rw [hsum, hdl, nsmul_eq_mul]
  exact mul_div_cancel_left₀ v (Nat.cast_ne_zero.mpr (by omega))

/-- The deviation of a price from itself is zero, whether or not the
average is zero. -/
theorem calculate_deviation_self (v : ℚ) : calculate_deviation v v = 0 := by
  unfold calculate_deviation
  split_ifs with h
  · rfl
  · rw [sub_self, zero_div, zero_mul]

/-- With a positive threshold, a zero deviation is classified NEUTRAL. -/
theorem generate_signal_zero (a : MADeviationAnalyzer) (label : String)
    (ht : 0 < a.threshold) :
    (a.generate_signal 0 label).signal = Signal.NEUTRAL := by
  have h1 : ¬((0 : ℚ) ≥ a.weak) := by
    simp only [MADeviationAnalyzer.weak]
    linarith
  have h2 : ¬((0 : ℚ) ≤ -a.weak) := by
    simp only [MADeviationAnalyzer.weak]
    linarith
  simp only [MADeviationAnalyzer.generate_signal, if_neg h1, if_neg h2]

/-- A signal set that is NEUTRAL throughout aggregates to (NEUTRAL, 0). -/
theorem overall_all_neutral (signals : List DeviationSignal)
    (h : ∀ s ∈ signals, s.signal = Signal.NEUTRAL) :
    calculate_overall_signal signals = (Signal.NEUTRAL, 0) := by
  simp only [calculate_overall_signal]
  split
  · rfl
  · have hb : signals.filter (fun s => s.signal = Signal.BUY) = [] := by
      rw [List.filter_eq_nil_iff]
      intro s hs
      simp [h s hs]
    have hsf : signals.filter (fun s => s.signal = Signal.SELL) = [] := by
      rw [List.filter_eq_nil_iff]
      intro s hs
      simp [h s hs]
    simp [hb, hsf]

/-- C7: on a non-empty history whose closing prices are all equal (with a
positive configured threshold), every computable period has deviation
exactly 0 and `analyze` reports NEUTRAL with confidence 0. -/
theorem analyze_const_prices (a : MADeviationAnalyzer) (df : List PricePoint)
    (code name time : String) (v : ℚ) (ht : 0 < a.threshold)
    (hne : df ≠ []) (hv : ∀ p ∈ df, p.close = v) :
    ∃ r, analyze a df code name time = Except.ok r ∧
      (∀ s ∈ r.signals, s.deviation_pct = 0) ∧
      r.overall_signal = Signal.NEUTRAL ∧ r.confidence = 0 := by
  obtain ⟨r, hr⟩ := analyze_ok_of_ne_nil a df code name time hne
  obtain ⟨hsig, hov, hconf⟩ := analyze_ok_signals a df code name time r hr
  have hsne : sortByDate df ≠ [] :=
    fun hnil => hne (sortByDate_eq_nil_iff.mp hnil)
  have hcp : ((sortByDate df).getLastD ⟨0, 0⟩).close = v :=
    hv _ (mem_sortByDate.mp (getLastD_mem _ ⟨0, 0⟩ hsne))
  have hcv : ∀ c ∈ (sortByDate df).map PricePoint.close, c = v := by
    intro c hc
    obtain ⟨p, hp, rfl⟩ := List.mem_map.mp hc
    exact hv p (mem_sortByDate.mp hp)
  have key : ∀ s ∈ r.signals, s.deviation_pct = 0 ∧
      s.signal = Signal.NEUTRAL := by
    intro s hs
    rw [hsig] at hs
    obtain ⟨⟨s2, e⟩, hmem, hfst⟩ := List.mem_map.mp hs
    obtain ⟨period, hper, heval⟩ := List.mem_filterMap.mp hmem
    obtain ⟨hlen, hsg, -, hdev⟩ :=
      evalPeriod_some a ((sortByDate df).map PricePoint.close)
        ((sortByDate df).getLastD ⟨0, 0⟩).close period s2 e heval
    have hp : 0 < period := by
      have hall : ∀ p ∈ ma_periods, 0 < p := by decide
      exact hall period hper
    have hma : calculate_ma ((sortByDate df).map PricePoint.close) period
        = v := calculate_ma_const _ v period hcv hp (by omega)
    cases hfst
    constructor
    · rw [hdev, hcp, hma]
      exact calculate_deviation_self v
    · rw [hsg, hcp, hma, calculate_deviation_self v]
      exact generate_signal_zero a _ ht
  refine ⟨r, hr, fun s hs => (key s hs).1, ?_, ?_⟩
  · rw [hov, overall_all_neutral r.signals (fun s hs => (key s hs).2)]
  · rw [hconf, overall_all_neutral r.signals (fun s hs => (key s hs).2)]

theorem analyze_const_prices_witness :
    ∃ r, analyze ⟨2⟩ [⟨0, 10⟩, ⟨1, 10⟩] "c" "n" "t" = Except.ok r ∧
      (∀ s ∈ r.signals, s.deviation_pct = 0) ∧
      r.overall_signal = Signal.NEUTRAL ∧ r.confidence = 0 :=
  analyze_const_prices ⟨2⟩ [⟨0, 10⟩, ⟨1, 10⟩] "c" "n" "t" 10
    (by decide) (by decide) (by decide)

/-- A NEUTRAL result for exercising the report formatter. -/
def neutralExample : DeviationAnalysisResult :=
  ⟨"000001", "示例", 10, [], Signal.NEUTRAL, 0, "2024-01-01 00:00:00", []⟩

/-- C9 counterexample: on a NEUTRAL result the formatted report ends at the
overall-signal line itself — no advisory sentence follows it anywhere in
the report, contradicting the claim that each of BUY, SELL and NEUTRAL has
its own fixed advisory text after that line. -/
theorem format_result_neutral_no_advisory :
    (formatLines neutralExample).getLast? =
        Option.some (overallLine neutralExample) ∧
      ∀ l ∈ formatLines neutralExample, l ≠ "**操作建议**:" := by decide

/-- C9 (amended): the formatted report ends with the overall-signal line
with confidence followed by a fixed advisory block keyed only by the
overall signal; BUY and SELL have distinct fixed advisory texts, while
NEUTRAL gets no advisory at all and the report ends with the
overall-signal line. -/
theorem format_result_tail (result : DeviationAnalysisResult) :
    (∃ pre, format_result result = String.intercalate "\n"
        (pre ++ overallLine result :: advisoryBlock result.overall_signal)) ∧
      advisoryBlock Signal.BUY ≠ advisoryBlock Signal.SELL ∧
      advisoryBlock Signal.BUY ≠ [] ∧ advisoryBlock Signal.SELL ≠ [] ∧
      advisoryBlock Signal.NEUTRAL = [] := by
  refine ⟨⟨["## [分析] " ++ result.name ++ " (" ++ result.code ++
      ") 均线偏离分析", "",
      "**当前价格**: " ++ toString result.current_price,
      "**分析时间**: " ++ result.analysis_time, "", "### 偏离详情", ""] ++
    result.signals.map (fun sig =>
      signalEmoji sig.signal ++ " **" ++ sig.ma_type ++ "**: " ++
        toString sig.ma_value ++ " | 偏离: " ++
        fmtSigned2 sig.deviation_pct ++ "% | " ++ sig.reason) ++
    ["", "### 综合判断", ""], ?_⟩, by decide, by decide, by decide, rfl⟩
  unfold format_result
  congr 1
  unfold formatLines overallLine advisoryBlock
  cases h : result.overall_signal <;> simp [h]
